import Mathlib

/-!
Verification development for the OpenPower VPD parser (`src/impl.hpp`).

The repository ships the parser's class declaration (`Impl` in
`impl.hpp`) together with the constructor body; the remaining method
bodies live in an `impl.cpp` that is not part of the source tree, so
the behaviour of `run`, `checkHeader`, `readTOC`, `readPT`,
`processRecord`, `readKeywords`, `readKwData`, the ECC checks and
`readKwFromHw` is modelled from the specification (spec.md §§2-7),
keeping the names and the call structure declared in the header.

Machine-level conventions of the model (the spec leaves them open, so
they are fixed here once and used consistently, including in the
concrete witness buffers):
* a byte is a `Nat` (values 0..255 in well-formed buffers); a buffer
  is a `List Nat`;
* multi-byte offset/length fields are two bytes, big-endian;
* the ECC trailer of a block is modelled as a one-byte checksum (the
  real error-correcting code is an external collaborator, spec §2:
  the parser only consumes its pass/fail verdict);
* fixed layout: the header record "VHDR" starts at byte 0, its data
  part is 12 bytes (name, then the VTOC offset / length / ECC offset /
  ECC length fields) followed by its ECC byte at offset 12; the VTOC
  record carries its 4-byte name and then its "PT" keyword directly.
-/

/-- A raw byte buffer: the binary VPD image (`Binary` in the source). -/
abbrev Binary := List Nat

/-- A parsed keyword map: keyword name to decoded value, in discovery
order (`internal::KeywordMap` in the source). -/
abbrev KeywordMap := List (String × String)

/-- The parser output: record name to keyword map, in discovery order
(`Parsed` in the source). -/
abbrev Parsed := List (String × KeywordMap)

/-- Encoding scheme of a VPD keyword's data (`keyword::Encoding` in
`impl.hpp`, lines 17-26). -/
inductive Encoding where
  | ASCII
  | RAW
  | B1
  | MB
  | UD
deriving DecidableEq, Repr

/-- One entry of the table of contents: record name plus the four
fixed-width fields of a PT entry (spec §6: name 4 bytes, record offset
2, record length 2, ECC offset 2, ECC length 2). -/
structure TocEntry where
  name : String
  offset : Nat
  len : Nat
  eccOff : Nat
  eccLen : Nat
deriving DecidableEq, Repr

/-- An ordered table of contents (`internal::OffsetList` in the
source, enriched with the ECC fields the record check needs). -/
abbrev OffsetList := List TocEntry

/-- Errors that abort the whole parse (spec §7, fatal taxonomy). -/
inductive VpdError where
  | headerInvalid
  | tocInvalid
deriving DecidableEq, Repr

/-- Errors of the hardware re-read path (spec §4.7: the live read
returns text, a not-found signal, or a distinct I/O error). -/
inductive HwReadError where
  | ioError
  | notFound
deriving DecidableEq, Repr

/-- Byte at an absolute offset; reads beyond the end of the buffer
yield 0 (the model's bounds-checked cursor, spec §9: out-of-bounds
never crashes, the checks downstream simply fail). -/
def byteAt (buf : Binary) (i : Nat) : Nat :=
  buf.getD i 0

/-- Contiguous slice `[off, off+len)` of the buffer, shorter when the
buffer ends early. -/
def bufSlice (buf : Binary) (off len : Nat) : Binary :=
  (buf.drop off).take len

/-- Two-byte big-endian field at an absolute offset. -/
def word16 (buf : Binary) (off : Nat) : Nat :=
  byteAt buf off * 256 + byteAt buf (off + 1)

/-- Modelled from the spec: the ECC checker is an external pure
pass/fail check (spec §4.1); the model fixes it as a one-byte sum
checksum over the protected block. -/
def eccOf (data : Binary) : Nat :=
  data.sum % 256

/-- Modelled from the spec: `check(buffer_slice) -> Ok | Corrupted`
(spec §4.1) — the ECC trailer must be exactly the checksum byte of the
protected data. -/
def eccVerify (data ecc : Binary) : Bool :=
  ecc == [eccOf data]

/-- Record name: 4 ASCII characters at the record's offset (spec §6). -/
def recNameAt (buf : Binary) (off : Nat) : String :=
  String.mk ((bufSlice buf off 4).map Char.ofNat)

/-- Keyword name: 2 ASCII characters (spec §6). -/
def kwNameAt (buf : Binary) (off : Nat) : String :=
  String.mk ((bufSlice buf off 2).map Char.ofNat)

/-- Modelled from the spec: `Impl::checkHeader` (declared `impl.hpp`
line 161) — the buffer's first record must be named "VHDR" and the
header block must pass its ECC check (spec §4.2). -/
def checkHeader (buf : Binary) : Bool :=
  recNameAt buf 0 == "VHDR" && eccVerify (bufSlice buf 0 12) (bufSlice buf 12 1)

/-- Modelled from the spec: `Impl::vhdrEccCheck` in isolation — the
ECC verdict on the header block alone. -/
def vhdrEccCheck (buf : Binary) : Bool :=
  eccVerify (bufSlice buf 0 12) (bufSlice buf 12 1)

/-- Modelled from the spec: `Impl::getVtocOffset` (declared `impl.hpp`
line 183) — the VTOC offset is recorded at a fixed field of the header
(model: bytes 4-5). -/
def getVtocOffset (buf : Binary) : Nat :=
  word16 buf 4

/-- VTOC length field of the header (model: bytes 6-7). -/
def getVtocLen (buf : Binary) : Nat :=
  word16 buf 6

/-- VTOC ECC offset field of the header (model: bytes 8-9). -/
def getVtocEccOff (buf : Binary) : Nat :=
  word16 buf 8

/-- VTOC ECC length field of the header (model: bytes 10-11). -/
def getVtocEccLen (buf : Binary) : Nat :=
  word16 buf 10

/-- Length byte of the VTOC's PT keyword; the PT keyword follows the
4-byte VTOC name directly in this model (2-byte name "PT", then a
length byte). -/
def ptLenOf (buf : Binary) : Nat :=
  byteAt buf (getVtocOffset buf + 6)

/-- Modelled from the spec: the supported-record allow-list (spec
§4.3 step 4) — record names outside it are present in hardware but
intentionally not parsed. -/
def supportedRecords : List String :=
  ["VINI", "VSYS", "VCEN", "LXR0", "OPFR"]

/-- Modelled from the spec: `Impl::readPT` (declared `impl.hpp` lines
127-128) — decode back-to-back fixed-width 12-byte PT entries, in
order, skipping names outside the allow-list; `count` is the entry
count derived from the PT length. -/
def readPT (buf : Binary) (pos : Nat) : Nat → OffsetList
  | 0 => []
  | n + 1 =>
    let name := recNameAt buf pos
    let entry : TocEntry :=
      { name := name
        offset := word16 buf (pos + 4)
        len := word16 buf (pos + 6)
        eccOff := word16 buf (pos + 8)
        eccLen := word16 buf (pos + 10) }
    let rest := readPT buf (pos + 12) n
    if supportedRecords.contains name then entry :: rest else rest

/-- Modelled from the spec: `Impl::readTOC` / `Impl::vtocEccCheck`
(declared `impl.hpp` lines 117 and 171) — locate the VTOC via the
header field, check its name and ECC (abort on failure), then decode
the PT keyword's entries (spec §4.3). -/
def readTOC (buf : Binary) : Except VpdError OffsetList :=
  if recNameAt buf (getVtocOffset buf) != "VTOC" then .error .tocInvalid
  else if !eccVerify (bufSlice buf (getVtocOffset buf) (getVtocLen buf))
      (bufSlice buf (getVtocEccOff buf) (getVtocEccLen buf)) then .error .tocInvalid
  else if kwNameAt buf (getVtocOffset buf + 4) != "PT" then .error .tocInvalid
  else .ok (readPT buf (getVtocOffset buf + 7) (ptLenOf buf / 12))

/-- Modelled from the spec: the static encoding-lookup table (spec §9)
keyed by keyword name; unknown keywords fall back to ASCII (spec §8). -/
def getEncoding (kw : String) : Encoding :=
  if kw == "B1" then .B1
  else if kw == "MB" then .MB
  else if kw == "UD" then .UD
  else if kw == "HW" then .RAW
  else .ASCII

/-- Expected fixed width of the custom encodings (spec §4.6: B1 is a
6-octet MAC-like grouping, MB a packed date/time, UD a 16-byte UUID). -/
def expectedWidth : Encoding → Nat
  | .B1 => 6
  | .MB => 8
  | .UD => 16
  | .ASCII => 0
  | .RAW => 0

/-- Right-truncate or zero-pad a byte list to exactly `w` bytes — the
deterministic rule of spec §4.6 for undersized custom payloads. -/
def padTo (w : Nat) (bs : Binary) : Binary :=
  bs.take w ++ List.replicate (w - bs.length) 0

/-- Uppercase hexadecimal digit. -/
def hexDigit (n : Nat) : Char :=
  if n < 10 then Char.ofNat (48 + n) else Char.ofNat (55 + n)

/-- One byte as two uppercase hexadecimal characters. -/
def hex2 (b : Nat) : String :=
  String.mk [hexDigit (b / 16 % 16), hexDigit (b % 16)]

/-- Modelled from the spec: `Impl::readKwData` (declared `impl.hpp`
lines 146-148) — the pure keyword decoder of spec §4.6: ASCII
passthrough, uppercase hex for RAW, colon-separated hex octets for B1,
a fixed-format date/time for MB, canonical 8-4-4-4-12 hex for UD; the
custom encodings first truncate/zero-pad to their fixed width. -/
def readKwData (enc : Encoding) (bs : Binary) : String :=
  match enc with
  | .ASCII => String.mk (bs.map Char.ofNat)
  | .RAW => String.join (bs.map hex2)
  | .B1 => String.intercalate ":" ((padTo 6 bs).map hex2)
  | .MB =>
    let p := padTo 8 bs
    hex2 (byteAt p 1) ++ hex2 (byteAt p 2) ++ "-" ++ hex2 (byteAt p 3) ++ "-"
      ++ hex2 (byteAt p 4) ++ " " ++ hex2 (byteAt p 5) ++ ":" ++ hex2 (byteAt p 6)
      ++ ":" ++ hex2 (byteAt p 7)
  | .UD =>
    let p := padTo 16 bs
    String.join ((bufSlice p 0 4).map hex2) ++ "-" ++ String.join ((bufSlice p 4 2).map hex2)
      ++ "-" ++ String.join ((bufSlice p 6 2).map hex2) ++ "-"
      ++ String.join ((bufSlice p 8 2).map hex2) ++ "-" ++ String.join ((bufSlice p 10 6).map hex2)

/-- Insert a keyword into the map: duplicates overwrite the earlier
value in place, preserving discovery order (spec §4.5 step 4). -/
def kwInsert (m : KeywordMap) (k v : String) : KeywordMap :=
  match m with
  | [] => [(k, v)]
  | (k', v') :: rest => if k' == k then (k', v) :: rest else (k', v') :: kwInsert rest k v

/-- Declared data length of the keyword whose name starts at `pos`:
the reserved large keyword "#D" carries a two-byte big-endian length,
every other keyword a one-byte length (spec §4.5 step 1, §6). -/
def kwLenAt (buf : Binary) (pos : Nat) : Nat :=
  if kwNameAt buf pos == "#D" then word16 buf (pos + 2) else byteAt buf (pos + 2)

/-- Start of the data bytes of the keyword whose name starts at `pos`:
after the 2-byte name and its one- or two-byte length field. -/
def kwDataStart (buf : Binary) (pos : Nat) : Nat :=
  if kwNameAt buf pos == "#D" then pos + 4 else pos + 3

/-- Modelled from the spec: `Impl::readKeywords` (declared `impl.hpp`
line 158) — walk the keyword sub-stream of one record (spec §4.5):
stop at the terminator keyword "PF" or when the record's declared end
`recEnd` is exhausted; the reserved large keyword "#D" carries a
two-byte length; a length that runs past the record end aborts this
record's reading, returning the map accumulated so far. `fuel` bounds
the iteration (callers pass the record length; every keyword consumes
at least 3 bytes, so it never runs out first). -/
def readKeywords (buf : Binary) (recEnd : Nat) : Nat → Nat → KeywordMap → KeywordMap
  | 0, _, acc => acc
  | fuel + 1, pos, acc =>
    if pos + 3 > recEnd then acc
    else
      let kw := kwNameAt buf pos
      if kw == "PF" then acc
      else if kwDataStart buf pos + kwLenAt buf pos > recEnd then acc
      else
        readKeywords buf recEnd fuel (kwDataStart buf pos + kwLenAt buf pos)
          (kwInsert acc kw
            (readKwData (getEncoding kw) (bufSlice buf (kwDataStart buf pos) (kwLenAt buf pos))))

/-- Fully decode one record that passed its checks: register its name
and read its keywords (spec §4.4 steps 3-4). -/
def decodeRecord (buf : Binary) (e : TocEntry) : String × KeywordMap :=
  (e.name, readKeywords buf (e.offset + e.len) e.len (e.offset + 4) [])

/-- Modelled from the spec: `Impl::recordEccCheck` (declared
`impl.hpp` line 178) — ECC verdict for one TOC-listed record, over the
bufSlice its TOC entry declares. -/
def recordEccCheck (buf : Binary) (e : TocEntry) : Bool :=
  eccVerify (bufSlice buf e.offset e.len) (bufSlice buf e.eccOff e.eccLen)

/-- Modelled from the spec: `Impl::processRecord` (declared `impl.hpp`
line 135) — cross-check the record's self-declared name against its
TOC entry and ECC-check it; on either failure skip this record only
(spec §4.4 steps 1-2), otherwise decode it. -/
def processRecord (buf : Binary) (e : TocEntry) : Option (String × KeywordMap) :=
  if recNameAt buf e.offset != e.name then none
  else if !recordEccCheck buf e then none
  else some (decodeRecord buf e)

/-- Process every TOC entry in list order, keeping the records that
pass their checks (spec §4.4, partial-result policy). -/
def processRecords (buf : Binary) (entries : OffsetList) : Parsed :=
  entries.filterMap (processRecord buf)

/-- Modelled from the spec: `Impl::run` (declared `impl.hpp` line 96)
— validate the header (abort on failure, spec §4.2), resolve the TOC
(abort on failure, spec §4.3), then process each listed record (spec
§4.4); the output is the ordered record map. -/
def run (buf : Binary) : Except VpdError Parsed :=
  if checkHeader buf then
    match readTOC buf with
    | .error e => .error e
    | .ok entries => .ok (processRecords buf entries)
  else .error .headerInvalid

/-- Look up a decoded keyword value in the parser output. -/
def lookupKw (p : Parsed) (r k : String) : Option String :=
  match p.find? (fun rec => rec.1 == r) with
  | none => none
  | some rec =>
    match rec.2.find? (fun kv => kv.1 == k) with
    | none => none
    | some kv => some kv.2

/-- Modelled from the spec: the live read over freshly obtained
hardware bytes (spec §4.7) — the same validation and scan as `run`,
returning just the requested keyword's decoded value, or a not-found
signal. -/
def readLive (hwBytes : Binary) (r k : String) : Except HwReadError String :=
  match run hwBytes with
  | .error _ => .error .notFound
  | .ok p =>
    match lookupKw p r k with
    | none => .error .notFound
    | some v => .ok v

/-- The parser object's state (`Impl`'s data members, `impl.hpp`
lines 185-201): the borrowed buffer, the two identifier paths, the
start offset, whether the hardware file stream is open, and the cached
parser output `out`. -/
structure ImplState where
  vpd : Binary
  inventoryPath : String
  vpdFilePath : String
  vpdStartOffset : Nat
  streamOpen : Bool
  out : Parsed
deriving DecidableEq, Repr

/-- The hardware source behind `vpdFilePath`: `none` when the file
cannot be opened, `some bytes` when it can. -/
abbrev HwSource := Option Binary

/-- Opening the hardware file stream, as the fallible operation the
constructor guards: failure carries the message the catch block
prints. -/
def openStream (hw : HwSource) : Except String Unit :=
  match hw with
  | none => .error "open failure"
  | some _ => .ok ()

/-- The constructor `Impl::Impl` (`impl.hpp` lines 75-90): stores the
buffer, the paths and the start offset, initialises `out` empty, and
tries to open the hardware file stream; an open failure is caught
inside the constructor (its message printed) and leaves the stream
unopened — it never escapes, so construction is a total function into
`ImplState`. -/
def mkImpl (vpdBuffer : Binary) (path vpdFilePath : String) (vpdStartOffset : Nat)
    (hw : HwSource) : ImplState :=
  { vpd := vpdBuffer
    inventoryPath := path
    vpdFilePath := vpdFilePath
    vpdStartOffset := vpdStartOffset
    streamOpen := match openStream hw with
      | .error _ => false
      | .ok _ => true
    out := [] }

/-- Modelled from the spec: `Impl::run` as it acts on the object —
populate the cached output `out` from the borrowed buffer. -/
def runImpl (s : ImplState) : Except VpdError ImplState :=
  match run s.vpd with
  | .error e => .error e
  | .ok p => .ok { s with out := p }

/-- Modelled from the spec: `Impl::readKwFromHw` (declared `impl.hpp`
lines 108-109) — re-open the live hardware source (scoped: the stream
is closed again on every exit, so `streamOpen` is restored); failure
to open is a distinct I/O error (spec §4.7); the cached output is
never touched. -/
def readKwFromHw (s : ImplState) (hw : HwSource) (r k : String) :
    Except HwReadError String × ImplState :=
  match hw with
  | none => (.error .ioError, s)
  | some bytes => (readLive bytes r k, s)

/-! Helper lemmas shared by the claim theorems. -/

/-- A filterMap where every element maps to `some` is a map. -/
theorem filterMap_eq_map_of_forall {α β : Type} (f : α → Option β) (g : α → β)
    (l : List α) (h : ∀ x ∈ l, f x = some (g x)) : l.filterMap f = l.map g := by
  induction l with
  | nil => rfl
  | cons a t ih =>
    simp only [List.filterMap_cons, h a (by simp), List.map_cons]
    rw [ih (fun x hx => h x (by simp [hx]))]

/-- A record failing its ECC check is skipped by `processRecord`,
whatever its name cross-check says. -/
theorem processRecord_none_of_eccFail (buf : Binary) (e : TocEntry)
    (hecc : recordEccCheck buf e = false) : processRecord buf e = none := by
  unfold processRecord
  split
  · rfl
  · simp [hecc]

/-- A record passing both checks is fully decoded by `processRecord`. -/
theorem processRecord_some_of_ok (buf : Binary) (e : TocEntry)
    (hname : recNameAt buf e.offset = e.name)
    (hecc : recordEccCheck buf e = true) :
    processRecord buf e = some (decodeRecord buf e) := by
  simp [processRecord, hname, hecc]

/-- Zero-padding an undersized payload up to the expected width first
does not change what `padTo` produces. -/
theorem padTo_append_replicate (w : Nat) (bs : Binary) (h : bs.length ≤ w) :
    padTo w (bs ++ List.replicate (w - bs.length) 0) = padTo w bs := by
  unfold padTo
  have hlen : (bs ++ List.replicate (w - bs.length) 0).length = w := by
    simp; omega
  rw [List.take_of_length_le (le_of_eq hlen), List.take_of_length_le h, hlen]
  simp

/-! The claim theorems. -/

/-- C1: for every input buffer whose first record is not the VHDR
header record, or whose header fails the ECC check, `run` aborts with
the structural `headerInvalid` error, and no parsed output (hence no
record) is ever produced. -/
theorem run_aborts_on_bad_header (buf : Binary)
    (h : recNameAt buf 0 ≠ "VHDR" ∨ vhdrEccCheck buf = false) :
    run buf = Except.error VpdError.headerInvalid ∧
      ∀ p : Parsed, run buf ≠ Except.ok p := by
  have hch : checkHeader buf = false := by
    rcases h with h | h
    · simp [checkHeader, h]
    · simp only [vhdrEccCheck] at h
      simp [checkHeader, h]
  refine ⟨by simp [run, hch], fun p => by simp [run, hch]⟩

/-- C1 witness: the empty buffer has no VHDR record and `run` rejects
it with the structural header error. -/
theorem run_aborts_on_bad_header_witness :
    run [] = Except.error VpdError.headerInvalid :=
  (run_aborts_on_bad_header [] (Or.inl (by decide))).1

/-- Header data of the synthetic round-trip buffer: VHDR name, then
VTOC offset 13, length 19, ECC offset 32, ECC length 1. -/
def hdrBody : Binary := [86, 72, 68, 82, 0, 13, 0, 19, 0, 32, 0, 1]

/-- The single PT entry of the round-trip buffer: record "VINI" at
offset 33, length 23, ECC offset 56, ECC length 1. -/
def ptEntryVini : Binary := [86, 73, 78, 73, 0, 33, 0, 23, 0, 56, 0, 1]

/-- VTOC body of the round-trip buffer: name "VTOC", keyword "PT" of
length 12, then the entry. -/
def vtocBody : Binary := [86, 84, 79, 67] ++ [80, 84, 12] ++ ptEntryVini

/-- VINI record body of the round-trip buffer: name "VINI", keyword
"SN" with ASCII bytes "1234567", keyword "B1" with six raw bytes. -/
def viniBody : Binary :=
  [86, 73, 78, 73] ++ [83, 78, 7] ++ [49, 50, 51, 52, 53, 54, 55]
    ++ [66, 49, 6] ++ [17, 34, 51, 68, 85, 102]

/-- The full synthetic round-trip buffer of the spec's scenario (§8):
header, TOC with one entry naming "VINI", and the "VINI" record, each
followed by its valid ECC trailer. -/
def goodBuf : Binary :=
  hdrBody ++ [eccOf hdrBody] ++ vtocBody ++ [eccOf vtocBody] ++ viniBody ++ [eccOf viniBody]

/-- C2: on the synthetic round-trip buffer, `run` succeeds and the
output binds record "VINI": keyword "SN" to the string "1234567" and
keyword "B1" to the colon-separated hex rendering of its six raw
bytes. -/
theorem run_roundtrip_goodBuf :
    run goodBuf = Except.ok
      [("VINI", [("SN", "1234567"),
        ("B1", String.intercalate ":" (List.map hex2 [17, 34, 51, 68, 85, 102]))])] := by
  rfl

/-- Header data of the two-record buffer: VTOC at offset 13, length
31, ECC offset 44, ECC length 1. -/
def twoRecHdr : Binary := [86, 72, 68, 82, 0, 13, 0, 31, 0, 44, 0, 1]

/-- PT entry for the valid "VINI" record of the two-record buffer. -/
def twoRecEntry1 : Binary := [86, 73, 78, 73, 0, 45, 0, 9, 0, 54, 0, 1]

/-- PT entry for the ECC-corrupted "VSYS" record of the two-record
buffer. -/
def twoRecEntry2 : Binary := [86, 83, 89, 83, 0, 55, 0, 9, 0, 64, 0, 1]

/-- VTOC body of the two-record buffer: name, "PT" keyword of length
24, then the two entries. -/
def twoRecVtoc : Binary := [86, 84, 79, 67] ++ [80, 84, 24] ++ twoRecEntry1 ++ twoRecEntry2

/-- The valid "VINI" record body: keyword "SN" with ASCII "AB". -/
def twoRecVini : Binary := [86, 73, 78, 73, 83, 78, 2, 65, 66]

/-- The "VSYS" record body: keyword "SN" with ASCII "CD"; its ECC
trailer in the buffer is deliberately off by one. -/
def twoRecVsys : Binary := [86, 83, 89, 83, 83, 78, 2, 67, 68]

/-- A buffer whose TOC lists two records: "VINI" is intact, "VSYS"
carries a corrupted ECC trailer. -/
def twoRecBuf : Binary :=
  twoRecHdr ++ [eccOf twoRecHdr] ++ twoRecVtoc ++ [eccOf twoRecVtoc]
    ++ twoRecVini ++ [eccOf twoRecVini] ++ twoRecVsys ++ [(eccOf twoRecVsys + 1) % 256]

/-- The decoded TOC entry of the intact "VINI" record. -/
def viniEntry : TocEntry :=
  { name := "VINI", offset := 45, len := 9, eccOff := 54, eccLen := 1 }

/-- The decoded TOC entry of the ECC-corrupted "VSYS" record. -/
def vsysEntry : TocEntry :=
  { name := "VSYS", offset := 55, len := 9, eccOff := 64, eccLen := 1 }

/-- C3: in a buffer whose TOC lists the records `pre ++ e :: post`,
where `e` fails its record ECC check and every other listed record
passes its checks, `run` still succeeds and its output is exactly
every other TOC-listed record fully decoded, in order — the ECC
failure skips only the failing record. -/
theorem run_skips_sole_ecc_failure (buf : Binary) (pre post : OffsetList) (e : TocEntry)
    (hhdr : checkHeader buf = true)
    (htoc : readTOC buf = Except.ok (pre ++ e :: post))
    (hecc : recordEccCheck buf e = false)
    (hok : ∀ e' ∈ pre ++ post,
      recNameAt buf e'.offset = e'.name ∧ recordEccCheck buf e' = true) :
    run buf = Except.ok ((pre ++ post).map (decodeRecord buf)) := by
  have hpre : pre.filterMap (processRecord buf) = pre.map (decodeRecord buf) :=
    filterMap_eq_map_of_forall _ _ _ (fun x hx =>
      processRecord_some_of_ok buf x (hok x (by simp [hx])).1 (hok x (by simp [hx])).2)
  have hpost : post.filterMap (processRecord buf) = post.map (decodeRecord buf) :=
    filterMap_eq_map_of_forall _ _ _ (fun x hx =>
      processRecord_some_of_ok buf x (hok x (by simp [hx])).1 (hok x (by simp [hx])).2)
  have hmain : processRecords buf (pre ++ e :: post)
      = (pre ++ post).map (decodeRecord buf) := by
    unfold processRecords
    rw [List.filterMap_append, List.filterMap_cons,
      processRecord_none_of_eccFail buf e hecc, hpre, hpost, List.map_append]
  simp [run, hhdr, htoc, hmain]

/-- C3 witness: on the concrete two-record buffer whose "VSYS" record
has a corrupted ECC trailer, `run` returns exactly the decoded "VINI"
record. -/
theorem run_skips_sole_ecc_failure_witness :
    run twoRecBuf = Except.ok (([viniEntry] ++ []).map (decodeRecord twoRecBuf)) :=
  run_skips_sole_ecc_failure twoRecBuf [viniEntry] [] vsysEntry rfl rfl rfl
    (by decide)

/-- Header data of the overrun buffer: VTOC at offset 13, length 31,
ECC offset 44, ECC length 1. -/
def c4Hdr : Binary := [86, 72, 68, 82, 0, 13, 0, 31, 0, 44, 0, 1]

/-- PT entry for the "VINI" record of the overrun buffer (offset 45,
length 13, ECC offset 58, ECC length 1). -/
def c4Entry1 : Binary := [86, 73, 78, 73, 0, 45, 0, 13, 0, 58, 0, 1]

/-- PT entry for the intact "VSYS" record of the overrun buffer
(offset 59, length 9, ECC offset 68, ECC length 1). -/
def c4Entry2 : Binary := [86, 83, 89, 83, 0, 59, 0, 9, 0, 68, 0, 1]

/-- VTOC body of the overrun buffer: name, "PT" keyword of length 24,
then the two entries. -/
def c4Vtoc : Binary := [86, 84, 79, 67] ++ [80, 84, 24] ++ c4Entry1 ++ c4Entry2

/-- The "VINI" record body of the overrun buffer: keyword "SN" with
ASCII "AB", then the reserved large keyword "#D" whose two-byte
length field declares 256 data bytes — far past the record's end. -/
def c4Vini : Binary := [86, 73, 78, 73, 83, 78, 2, 65, 66, 35, 68, 1, 0]

/-- The intact "VSYS" record body of the overrun buffer: keyword "SN"
with ASCII "CD". -/
def c4Vsys : Binary := [86, 83, 89, 83, 83, 78, 2, 67, 68]

/-- A buffer whose "VINI" record contains a "#D" keyword overrunning
the record end, followed by an intact "VSYS" record; all ECC trailers
are valid. -/
def c4Buf : Binary :=
  c4Hdr ++ [eccOf c4Hdr] ++ c4Vtoc ++ [eccOf c4Vtoc]
    ++ c4Vini ++ [eccOf c4Vini] ++ c4Vsys ++ [eccOf c4Vsys]

/-- The decoded TOC entry of the overrun buffer's "VINI" record. -/
def c4ViniEntry : TocEntry :=
  { name := "VINI", offset := 45, len := 13, eccOff := 58, eccLen := 1 }

/-- The decoded TOC entry of the overrun buffer's "VSYS" record. -/
def c4VsysEntry : TocEntry :=
  { name := "VSYS", offset := 59, len := 9, eccOff := 68, eccLen := 1 }

/-- C4: a keyword length field that runs past the end of the record —
the one-byte length of an ordinary keyword or the two-byte length of
the reserved "#D" keyword alike — stops the keyword reader, which
returns exactly the map accumulated up to that point, so keywords
already decoded before the malformed length remain in the output; and
the rest of the parse is unaffected: under any resolved TOC, `run`'s
output is the independent per-record contributions of the entries
before, at, and after any chosen entry, so an overrun inside one
record cannot change what the other records contribute. -/
theorem readKeywords_overrun_is_local (buf : Binary) :
    (∀ recEnd fuel pos acc, pos + 3 ≤ recEnd → kwNameAt buf pos ≠ "PF" →
      recEnd < kwDataStart buf pos + kwLenAt buf pos →
      readKeywords buf recEnd (fuel + 1) pos acc = acc) ∧
    (∀ pre e post, checkHeader buf = true →
      readTOC buf = Except.ok (pre ++ e :: post) →
      run buf = Except.ok (processRecords buf pre ++ processRecords buf [e]
        ++ processRecords buf post)) := by
  constructor
  · intro recEnd fuel pos acc hfit hterm hover
    unfold readKeywords
    have h1 : ¬ (pos + 3 > recEnd) := by omega
    have h2 : (kwNameAt buf pos == "PF") = false := beq_eq_false_iff_ne.mpr hterm
    simp only [h2, Bool.false_eq_true, if_false, if_neg h1]
    rw [if_pos (by omega)]
  · intro pre e post hhdr htoc
    have hsplit : processRecords buf (pre ++ e :: post)
        = processRecords buf pre ++ processRecords buf [e] ++ processRecords buf post := by
      unfold processRecords
      rw [show pre ++ e :: post = pre ++ [e] ++ post by simp,
        List.filterMap_append, List.filterMap_append]
    simp [run, hhdr, htoc, hsplit]

/-- C4 witness: in the concrete overrun buffer, the reader standing at
the "#D" keyword (position 54, record end 58, declared length 256)
returns the already-decoded "SN" keyword untouched; and `run`'s output
splits into the separate contributions of the "VINI" entry (its
partial keyword map) and the intact "VSYS" entry. -/
theorem readKeywords_overrun_is_local_witness :
    readKeywords c4Buf 58 (0 + 1) 54 [("SN", "AB")] = [("SN", "AB")] ∧
      run c4Buf = Except.ok (processRecords c4Buf [] ++ processRecords c4Buf [c4ViniEntry]
        ++ processRecords c4Buf [c4VsysEntry]) :=
  ⟨(readKeywords_overrun_is_local c4Buf).1 58 0 54 [("SN", "AB")]
      (by decide) (by decide) (by decide),
    (readKeywords_overrun_is_local c4Buf).2 [] c4ViniEntry [c4VsysEntry] rfl rfl⟩

/-- C5: for the fixed-width custom encodings B1, MB and UD, an
undersized payload decodes to exactly what its deterministic
zero-padding to the expected width decodes to — the decoder is a total
function into strings, so one short keyword never aborts the parse. -/
theorem readKwData_pads_undersized (enc : Encoding) (bs : Binary)
    (henc : enc = Encoding.B1 ∨ enc = Encoding.MB ∨ enc = Encoding.UD)
    (hlen : bs.length < expectedWidth enc) :
    readKwData enc bs
      = readKwData enc (bs ++ List.replicate (expectedWidth enc - bs.length) 0) := by
  rcases henc with rfl | rfl | rfl
  · simp only [expectedWidth] at hlen
    simp only [readKwData, expectedWidth]
    rw [padTo_append_replicate 6 bs (le_of_lt hlen)]
  · simp only [expectedWidth] at hlen
    simp only [readKwData, expectedWidth]
    rw [padTo_append_replicate 8 bs (le_of_lt hlen)]
  · simp only [expectedWidth] at hlen
    simp only [readKwData, expectedWidth]
    rw [padTo_append_replicate 16 bs (le_of_lt hlen)]

/-- C5 witness: a 2-byte B1 payload decodes exactly as its 6-byte
zero-padded form. -/
theorem readKwData_pads_undersized_witness :
    readKwData Encoding.B1 [1, 2]
      = readKwData Encoding.B1
        ([1, 2] ++ List.replicate (expectedWidth Encoding.B1 - ([1, 2] : Binary).length) 0) :=
  readKwData_pads_undersized Encoding.B1 [1, 2] (Or.inl rfl) (by decide)

/-- C6: keyword decoding is deterministic — for any supported encoding,
two invocations of the decoder on the same raw bytes yield identical
text. -/
theorem readKwData_deterministic (enc : Encoding) (b1 b2 : Binary) (h : b1 = b2) :
    readKwData enc b1 = readKwData enc b2 := by
  rw [h]

/-- C6 witness: decoding the ASCII bytes "HI" twice yields the same
string. -/
theorem readKwData_deterministic_witness :
    readKwData Encoding.ASCII [72, 73] = readKwData Encoding.ASCII [72, 73] :=
  readKwData_deterministic Encoding.ASCII [72, 73] [72, 73] rfl

/-- C7: for a buffer with a valid header and a TOC that resolves, a
zero-length PT keyword makes `run` succeed with an output containing
no data records at all. -/
theorem run_empty_pt_ok (buf : Binary) (es : OffsetList)
    (hhdr : checkHeader buf = true)
    (htoc : readTOC buf = Except.ok es)
    (hpt : ptLenOf buf = 0) :
    run buf = Except.ok [] ∧ es = [] := by
  have hes : es = [] := by
    have htoc' := htoc
    unfold readTOC at htoc'
    split at htoc'
    · simp at htoc'
    · split at htoc'
      · simp at htoc'
      · split at htoc'
        · simp at htoc'
        · rw [hpt] at htoc'
          simp only [Nat.zero_div, readPT] at htoc'
          exact (Except.ok.inj htoc').symm
  subst hes
  exact ⟨by simp [run, hhdr, htoc, processRecords], rfl⟩

/-- Header data of the empty-PT buffer: VTOC at offset 13, length 7,
ECC offset 20, ECC length 1. -/
def emptyPtHdr : Binary := [86, 72, 68, 82, 0, 13, 0, 7, 0, 20, 0, 1]

/-- VTOC body of the empty-PT buffer: name "VTOC" and a "PT" keyword
of length zero. -/
def emptyPtVtoc : Binary := [86, 84, 79, 67] ++ [80, 84, 0]

/-- A buffer with a valid header and a valid TOC whose PT keyword has
zero length. -/
def emptyPtBuf : Binary :=
  emptyPtHdr ++ [eccOf emptyPtHdr] ++ emptyPtVtoc ++ [eccOf emptyPtVtoc]

/-- C7 witness: on the concrete empty-PT buffer, `run` succeeds with
an empty output. -/
theorem run_empty_pt_ok_witness : run emptyPtBuf = Except.ok [] :=
  (run_empty_pt_ok emptyPtBuf [] rfl rfl rfl).1

/-- C8: when the live hardware source cannot be opened, the hardware
re-read reports the distinct `ioError` result to the caller — it is
not swallowed, and it is a different signal from `notFound`. -/
theorem readKwFromHw_open_failure_is_ioError (s : ImplState) (r k : String) :
    (readKwFromHw s none r k).1 = Except.error HwReadError.ioError ∧
      HwReadError.ioError ≠ HwReadError.notFound :=
  ⟨rfl, by decide⟩

/-- C9: for every record and keyword name and every hardware source,
the hardware re-read path leaves the cached parser output `out`
exactly as it was. -/
theorem readKwFromHw_preserves_out (s : ImplState) (hw : HwSource) (r k : String) :
    (readKwFromHw s hw r k).2.out = s.out := by
  cases hw <;> rfl

/-- C10: construction is a total function into `ImplState` — the
stream-open failure is confined to the constructor, which still builds
the object: its output starts empty, the buffer is stored, and when
the hardware path cannot be opened the object simply carries an
unopened file stream. -/
theorem mkImpl_never_fails (v : Binary) (p f : String) (o : Nat) (hw : HwSource) :
    (mkImpl v p f o hw).out = [] ∧ (mkImpl v p f o hw).vpd = v ∧
      (mkImpl v p f o none).streamOpen = false :=
  ⟨rfl, rfl, rfl⟩
